import Mathlib

/-!
Shallow embedding of the recurrence & forecast engine of
`src/personal_budget/state.py` (moomoolah), together with theorems settling
the specification claims about it.

Modelling conventions:
* Python `datetime.date` is a record of integer year/month/day; the library's
  validation of `date.replace` is modelled explicitly.
* Python `Decimal` amounts are modelled as `ℚ` (exact decimal arithmetic).
* Python `%` on integers is floor-style modulo and raises `ZeroDivisionError`
  for a zero divisor; fallible computations return `Except String α`, with
  the error string naming the Python exception.
* Python `dict` (insertion ordered) is modelled as an association list
  `List (String × ℚ)`; Python `set` as a duplicate-free `List String`.
-/

namespace Moomoolah

/-- Python `datetime.date`: a calendar date with integer fields.
A constructed date always has `1 ≤ month ≤ 12` and a day valid for the month;
the claims state those bounds explicitly where they matter. -/
structure Date where
  year : Int
  month : Int
  day : Int
deriving DecidableEq, Repr

/-- Gregorian leap-year rule used by Python's `datetime`. -/
def isLeapYear (y : Int) : Bool :=
  y % 4 == 0 && (y % 100 != 0 || y % 400 == 0)

/-- Number of days in a month, as `datetime` computes it. -/
def daysInMonth (y m : Int) : Int :=
  if m == 2 then (if isLeapYear y then 29 else 28)
  else if m == 4 || m == 6 || m == 9 || m == 11 then 30
  else 31

/-- Python `date.replace(month=m)`: validates the new month (and that the
existing day fits in it) and raises `ValueError` otherwise. `datetime` does
NOT normalize out-of-range months. -/
def Date.replaceMonth (d : Date) (m : Int) : Except String Date :=
  if m < 1 ∨ 12 < m then .error "ValueError: month must be in 1..12"
  else if d.day < 1 ∨ daysInMonth d.year m < d.day then
    .error "ValueError: day is out of range for month"
  else .ok { d with month := m }

/-- Python integer `%`: floor-style modulo (sign of the divisor), raising
`ZeroDivisionError` on a zero divisor. -/
def pymod (a b : Int) : Except String Int :=
  if b = 0 then .error "ZeroDivisionError" else .ok (Int.fmod a b)

/-- `RecurrenceType(enum.StrEnum)` of state.py. -/
inductive RecurrenceType where
  | ONE_TIME
  | MONTHLY
  | ANNUAL
deriving DecidableEq, Repr

/-- `Recurrence(BaseModel)` of state.py. Pydantic validates only the field
TYPES here (`every: int = 1` carries no range constraint), so every value of
this structure is constructible. -/
structure Recurrence where
  start_date : Date
  type : RecurrenceType
  every : Int := 1
  end_date : Option Date := none
deriving DecidableEq, Repr

/-- `Recurrence.will_occur_on_month` of state.py, line for line.  The trailing
`raise ValueError(f"Invalid recurrence type: ...")` of the Python source is
unreachable because the enumeration is closed; the Lean match is accordingly
exhaustive over the three enumerants. -/
def Recurrence.will_occur_on_month (r : Recurrence) (month_date : Date) :
    Except String Bool :=
  match r.type with
  | .ONE_TIME =>
      .ok (r.start_date.month == month_date.month &&
           r.start_date.year == month_date.year)
  | .MONTHLY => do
      let a ← pymod month_date.month r.every
      let b ← pymod r.start_date.month r.every
      pure (a == b)
  | .ANNUAL =>
      .ok (r.start_date.month == month_date.month)

/-- `EntryType(enum.StrEnum)` of state.py. -/
inductive EntryType where
  | INCOME
  | EXPENSE
deriving DecidableEq, Repr

/-- `FinancialEntry(BaseModel)` of state.py.  `amount: Decimal` is modelled
as `ℚ`;  pydantic value-equality is field-wise equality, i.e. `DecidableEq`. -/
structure FinancialEntry where
  amount : ℚ
  description : String
  type : EntryType
  recurrence : Recurrence
  category : String
deriving DecidableEq, Repr

/-- `FinancialEntry.will_occur_on_month`: delegates to the recurrence. -/
def FinancialEntry.will_occur_on_month (e : FinancialEntry) (month : Date) :
    Except String Bool :=
  e.recurrence.will_occur_on_month month

/-- `forecast[category] += amount` on a `defaultdict(Decimal)`: if the key is
present its value is increased in place (position kept), otherwise the key is
appended with value `0 + amount`. -/
def updateCategory (forecast : List (String × ℚ)) (c : String) (a : ℚ) :
    List (String × ℚ) :=
  if forecast.any (fun p => p.1 == c) then
    forecast.map (fun p => if p.1 = c then (p.1, p.2 + a) else p)
  else forecast ++ [(c, a)]

/-- `_build_forecast_by_category_for_month` of
`MonthlyForecast.from_financial_entries`: fold the entry list, adding the
amount of each entry that occurs in `month` into its category's bucket. -/
def buildForecastByCategory (month : Date) (entries : List FinancialEntry) :
    Except String (List (String × ℚ)) :=
  entries.foldlM
    (fun forecast entry => do
      let occurs ← entry.will_occur_on_month month
      pure (if occurs then updateCategory forecast entry.category entry.amount
            else forecast))
    []

/-- `MonthlyForecast(BaseModel)` of state.py. -/
structure MonthlyForecast where
  month : Date
  expenses_by_category : List (String × ℚ)
  income_by_category : List (String × ℚ)
deriving DecidableEq, Repr

/-- `MonthlyForecast.get_balance`: the three-key dict the Python method
returns. -/
def MonthlyForecast.get_balance (f : MonthlyForecast) : List (String × ℚ) :=
  let income := (f.income_by_category.map Prod.snd).sum
  let expenses := (f.expenses_by_category.map Prod.snd).sum
  [("total_income", income),
   ("total_expenses", expenses),
   ("balance", income - expenses)]

/-- `MonthlyForecast.from_financial_entries` of state.py (the constructor
evaluates the expenses mapping first, then the income mapping, exactly as the
keyword arguments are written). -/
def MonthlyForecast.from_financial_entries (month : Date)
    (income_entries expenses_entries : List FinancialEntry) :
    Except String MonthlyForecast := do
  let expenses ← buildForecastByCategory month expenses_entries
  let income ← buildForecastByCategory month income_entries
  pure { month := month
         expenses_by_category := expenses
         income_by_category := income }

/-- Python `set.add` on a set modelled as a duplicate-free list. -/
def setAdd (s : List String) (c : String) : List String :=
  if c ∈ s then s else s ++ [c]

/-- `FinancialState(BaseModel)` of state.py: the `_entries` dict keyed by
`EntryType` is flattened into the two lists the `income_entries` /
`expense_entries` properties expose, and likewise `_available_categories`. -/
structure FinancialState where
  income_entries : List FinancialEntry := []
  expense_entries : List FinancialEntry := []
  income_categories : List String := []
  expense_categories : List String := []
deriving DecidableEq, Repr

/-- `self._entries[t]`. -/
def FinancialState.entriesOf (s : FinancialState) : EntryType → List FinancialEntry
  | .INCOME => s.income_entries
  | .EXPENSE => s.expense_entries

/-- The other entry type (used to state that `remove_entry` leaves the other
type's sequence alone). -/
def EntryType.other : EntryType → EntryType
  | .INCOME => .EXPENSE
  | .EXPENSE => .INCOME

/-- `FinancialState.add_entry`: registers the category and appends the entry
to the type-appropriate sequence. -/
def FinancialState.add_entry (s : FinancialState) (e : FinancialEntry) :
    FinancialState :=
  match e.type with
  | .INCOME =>
      { s with income_categories := setAdd s.income_categories e.category
               income_entries := s.income_entries ++ [e] }
  | .EXPENSE =>
      { s with expense_categories := setAdd s.expense_categories e.category
               expense_entries := s.expense_entries ++ [e] }

/-- Python `list.remove(x)`: delete the first element equal to `x`, or fail
(`ValueError`) leaving the list untouched. -/
def listRemove (l : List FinancialEntry) (e : FinancialEntry) :
    Option (List FinancialEntry) :=
  match l with
  | [] => none
  | x :: xs => if x = e then some xs else (listRemove xs e).map (x :: ·)

/-- `FinancialState.remove_entry`: `self._entries[entry.type].remove(entry)`.
An `.error` result is the propagated `ValueError`; since `list.remove` either
deletes one element or raises before mutating, the caller's state is unchanged
on error (see `FinancialState.remove_entry_call`). -/
def FinancialState.remove_entry (s : FinancialState) (e : FinancialEntry) :
    Except String FinancialState :=
  match e.type with
  | .INCOME =>
      match listRemove s.income_entries e with
      | some l => .ok { s with income_entries := l }
      | none => .error "ValueError: list.remove(x): x not in list"
  | .EXPENSE =>
      match listRemove s.expense_entries e with
      | some l => .ok { s with expense_entries := l }
      | none => .error "ValueError: list.remove(x): x not in list"

/-- The method call `state.remove_entry(entry)` as a state transformer: its
result (`None` or a raised `ValueError`) together with the state the caller
observes afterwards. On error the state is the original one, because
`list.remove` raises before any mutation. -/
def FinancialState.remove_entry_call (s : FinancialState) (e : FinancialEntry) :
    Except String Unit × FinancialState :=
  match s.remove_entry e with
  | .ok s' => (.ok (), s')
  | .error msg => (.error msg, s)

/-- `FinancialState.get_monthly_forecast`. -/
def FinancialState.get_monthly_forecast (s : FinancialState) (month : Date) :
    Except String MonthlyForecast :=
  MonthlyForecast.from_financial_entries month s.income_entries s.expense_entries

/-- The method call `state.get_monthly_forecast(month)` as a state
transformer: the method only reads the entry lists, so the state component of
the embedding is the input state itself. -/
def FinancialState.get_monthly_forecast_call (s : FinancialState) (month : Date) :
    Except String MonthlyForecast × FinancialState :=
  (s.get_monthly_forecast month, s)

/-- Python dict assignment `d[k] = v`: overwrite in place if the key exists,
otherwise append. -/
def dictSet (d : List (String × MonthlyForecast)) (k : String)
    (v : MonthlyForecast) : List (String × MonthlyForecast) :=
  if d.any (fun p => p.1 == k) then
    d.map (fun p => if p.1 = k then (p.1, v) else p)
  else d ++ [(k, v)]

/-- `FinancialState.get_forecast_for_next_n_months` of state.py: asserts
`n > 0`, then for `i` in `range(n)` computes
`month = today.replace(month=today.month + i)` (which raises `ValueError`
when `today.month + i` falls outside `1..12` — `datetime` does not roll the
month over into the next year) and stores the monthly forecast under the key
`f"{month.year}-{month.month}"`. `today` (Python `date.today()`) is passed
explicitly. -/
def FinancialState.get_forecast_for_next_n_months (s : FinancialState)
    (today : Date) (n : Int) :
    Except String (List (String × MonthlyForecast)) :=
  if n ≤ 0 then .error "AssertionError: n must be a positive integer"
  else
    (List.range n.toNat).foldlM
      (fun forecast i => do
        let month ← today.replaceMonth (today.month + (i : Int))
        let mf ← s.get_monthly_forecast month
        pure (dictSet forecast
          (toString month.year ++ "-" ++ toString month.month) mf))
      []

/-! ### Basic reduction lemmas -/

@[simp]
theorem exceptOkBind {α β : Type} (a : α) (f : α → Except String β) :
    (Except.ok a >>= f) = f a := rfl

@[simp]
theorem exceptErrorBind {α β : Type} (msg : String) (f : α → Except String β) :
    ((Except.error msg : Except String α) >>= f) = Except.error msg := rfl

@[simp]
theorem exceptPureEq {α : Type} (a : α) :
    (pure a : Except String α) = Except.ok a := rfl

/-- Reduction of `will_occur_on_month` on a MONTHLY recurrence with a nonzero
interval: both Python modulo operations succeed. -/
theorem will_occur_monthly_eq (r : Recurrence) (d : Date)
    (ht : r.type = RecurrenceType.MONTHLY) (hz : r.every ≠ 0) :
    r.will_occur_on_month d =
      Except.ok (Int.fmod d.month r.every == Int.fmod r.start_date.month r.every) := by
  unfold Recurrence.will_occur_on_month pymod
  rw [ht]
  simp [hz]

/-! ### Claims about `Recurrence.will_occur_on_month` -/

/-- C4: for a ONE_TIME recurrence, `will_occur_on_month` is true for exactly
the (year, month) pair of the start date, and false for every other
(year, month) pair. -/
theorem one_time_occurs_exactly_once (r : Recurrence) (d : Date)
    (ht : r.type = RecurrenceType.ONE_TIME) :
    (r.will_occur_on_month d = Except.ok true ↔
      d.year = r.start_date.year ∧ d.month = r.start_date.month) ∧
    (r.will_occur_on_month d = Except.ok false ↔
      ¬(d.year = r.start_date.year ∧ d.month = r.start_date.month)) := by
  unfold Recurrence.will_occur_on_month
  rw [ht]
  constructor
  · simp only [Except.ok.injEq, Bool.and_eq_true, beq_iff_eq]
    constructor
    · rintro ⟨h1, h2⟩; exact ⟨h2.symm, h1.symm⟩
    · rintro ⟨h1, h2⟩; exact ⟨h2.symm, h1.symm⟩
  · simp only [Except.ok.injEq, Bool.and_eq_false_iff, beq_eq_false_iff_ne, ne_eq,
      not_and]
    constructor
    · rintro (h1 | h1) h2 h3
      · exact h1 h3.symm
      · exact h1 h2.symm
    · intro h
      by_cases hy : d.year = r.start_date.year
      · exact Or.inl (fun hm => h hy hm.symm)
      · exact Or.inr (fun hy2 => hy hy2.symm)

/-- C4 witness: a ONE_TIME recurrence starting 2024-03-10, queried at
2025-03-01. -/
theorem one_time_occurs_exactly_once_witness :
    ((Recurrence.mk ⟨2024, 3, 10⟩ .ONE_TIME 1 none).will_occur_on_month
        ⟨2025, 3, 1⟩ = Except.ok true ↔
      (2025 : Int) = 2024 ∧ (3 : Int) = 3) ∧
    ((Recurrence.mk ⟨2024, 3, 10⟩ .ONE_TIME 1 none).will_occur_on_month
        ⟨2025, 3, 1⟩ = Except.ok false ↔
      ¬((2025 : Int) = 2024 ∧ (3 : Int) = 3)) :=
  one_time_occurs_exactly_once _ _ rfl

/-- C5: for an ANNUAL recurrence, `will_occur_on_month` is true iff the target
month number equals the start month number; the target's year is ignored
(dates sharing a month number get the same answer). -/
theorem annual_occurs_on_start_month (r : Recurrence) (d : Date)
    (ht : r.type = RecurrenceType.ANNUAL) :
    (r.will_occur_on_month d = Except.ok true ↔ d.month = r.start_date.month) ∧
    (∀ d' : Date, d'.month = d.month →
      r.will_occur_on_month d' = r.will_occur_on_month d) := by
  unfold Recurrence.will_occur_on_month
  rw [ht]
  constructor
  · simp only [Except.ok.injEq, beq_iff_eq]
    exact ⟨fun h => h.symm, fun h => h.symm⟩
  · intro d' hm
    rw [hm]

/-- C5 witness: an ANNUAL recurrence starting 2020-07-15, queried at
2024-07-01 (and the year-independence clause at a third date 1999-07-31). -/
theorem annual_occurs_on_start_month_witness :
    ((Recurrence.mk ⟨2020, 7, 15⟩ .ANNUAL 1 none).will_occur_on_month
        ⟨2024, 7, 1⟩ = Except.ok true ↔ (7 : Int) = 7) ∧
    (∀ d' : Date, d'.month = (7 : Int) →
      (Recurrence.mk ⟨2020, 7, 15⟩ .ANNUAL 1 none).will_occur_on_month d' =
        (Recurrence.mk ⟨2020, 7, 15⟩ .ANNUAL 1 none).will_occur_on_month
          ⟨2024, 7, 1⟩) :=
  annual_occurs_on_start_month _ _ rfl

/-- C1: for a MONTHLY recurrence with `every ≥ 1`, `will_occur_on_month` is
true iff `targetMonth.month % every = start_date.month % every`; the result
depends only on the target's calendar month number (so for every > 1 the same
month numbers match in every year, before or after `start_date`), and
`end_date` is never consulted. -/
theorem monthly_occurs_on_mod_month (r : Recurrence) (d : Date)
    (ht : r.type = RecurrenceType.MONTHLY) (he : 1 ≤ r.every) :
    (r.will_occur_on_month d = Except.ok true ↔
      d.month % r.every = r.start_date.month % r.every) ∧
    (∀ d' : Date, d'.month = d.month →
      r.will_occur_on_month d' = r.will_occur_on_month d) ∧
    (∀ ed : Option Date,
      Recurrence.will_occur_on_month { r with end_date := ed } d =
        r.will_occur_on_month d) := by
  have hz : r.every ≠ 0 := by omega
  have hnn : (0 : Int) ≤ r.every := by omega
  refine ⟨?_, ?_, ?_⟩
  · rw [will_occur_monthly_eq r d ht hz, Int.fmod_eq_emod _ hnn,
      Int.fmod_eq_emod _ hnn]
    simp only [Except.ok.injEq, beq_iff_eq]
  · intro d' hm
    rw [will_occur_monthly_eq r d ht hz, will_occur_monthly_eq r d' ht hz, hm]
  · intro ed
    rw [will_occur_monthly_eq r d ht hz,
      will_occur_monthly_eq { r with end_date := ed } d ht hz]

/-- C1 witness: a bi-monthly recurrence starting 2024-02-05, queried at
2022-04-01 — a matching month in a year before the start date. -/
theorem monthly_occurs_on_mod_month_witness :
    (1 : Int) ≤ 2 ∧
    (((Recurrence.mk ⟨2024, 2, 5⟩ .MONTHLY 2 none).will_occur_on_month
        ⟨2022, 4, 1⟩ = Except.ok true ↔ (4 : Int) % 2 = 2 % 2) ∧
     (∀ d' : Date, d'.month = (4 : Int) →
       (Recurrence.mk ⟨2024, 2, 5⟩ .MONTHLY 2 none).will_occur_on_month d' =
         (Recurrence.mk ⟨2024, 2, 5⟩ .MONTHLY 2 none).will_occur_on_month
           ⟨2022, 4, 1⟩) ∧
     (∀ ed : Option Date,
       Recurrence.will_occur_on_month
           { Recurrence.mk ⟨2024, 2, 5⟩ .MONTHLY 2 none with end_date := ed }
           ⟨2022, 4, 1⟩ =
         (Recurrence.mk ⟨2024, 2, 5⟩ .MONTHLY 2 none).will_occur_on_month
           ⟨2022, 4, 1⟩)) :=
  ⟨by decide, monthly_occurs_on_mod_month _ _ rfl (by decide)⟩

/-- C6 counterexample: the claim says construction rejects a non-positive
`every`, but pydantic only checks the field's type, so a MONTHLY recurrence
with `every = 0` is a perfectly constructible value — and on it
`will_occur_on_month` is not total: it fails with ZeroDivisionError. -/
theorem recurrence_every_unvalidated :
    (Recurrence.mk ⟨2024, 2, 1⟩ .MONTHLY 0 none).every < 1 ∧
    (Recurrence.mk ⟨2024, 2, 1⟩ .MONTHLY 0 none).will_occur_on_month
        ⟨2024, 4, 1⟩ = Except.error "ZeroDivisionError" :=
  ⟨by decide, rfl⟩

/-- C6 (amended): construction does not validate `every`; but for every
Recurrence whose `every` is at least 1, `will_occur_on_month` is total — for
each of the three defined recurrence types it returns a boolean and never
fails (the defensive invalid-type branch is unreachable and the MONTHLY
modulo never divides by zero). -/
theorem will_occur_total_of_every_pos (r : Recurrence) (d : Date)
    (he : 1 ≤ r.every) :
    ∃ b, r.will_occur_on_month d = Except.ok b := by
  have hz : r.every ≠ 0 := by omega
  unfold Recurrence.will_occur_on_month pymod
  cases h : r.type <;> simp [hz]

/-- C6 witness: totality at a concrete MONTHLY recurrence with every = 3. -/
theorem will_occur_total_of_every_pos_witness :
    (1 : Int) ≤ 3 ∧
    ∃ b, (Recurrence.mk ⟨2024, 2, 5⟩ .MONTHLY 3 none).will_occur_on_month
        ⟨2024, 5, 1⟩ = Except.ok b :=
  ⟨by decide, will_occur_total_of_every_pos _ _ (by decide)⟩

/-! ### Claims about `MonthlyForecast` and `FinancialState` -/

/-- C7: `get_balance` returns total_income and total_expenses as the sums of
the values of the respective per-category mappings, and balance as their
difference. -/
theorem get_balance_additive (f : MonthlyForecast) :
    f.get_balance.lookup "total_income" =
      some ((f.income_by_category.map Prod.snd).sum) ∧
    f.get_balance.lookup "total_expenses" =
      some ((f.expenses_by_category.map Prod.snd).sum) ∧
    f.get_balance.lookup "balance" =
      some ((f.income_by_category.map Prod.snd).sum -
            (f.expenses_by_category.map Prod.snd).sum) := by
  refine ⟨rfl, ?_, ?_⟩ <;> rfl

/-- C8: `get_monthly_forecast` is deterministic, side-effect free and
idempotent: a call leaves the state unchanged, a repeated call on the
resulting state returns a value-equal forecast, and the result is a pure
function of the entry lists. -/
theorem get_monthly_forecast_idempotent (s : FinancialState) (month : Date) :
    (s.get_monthly_forecast_call month).2 = s ∧
    ((s.get_monthly_forecast_call month).2.get_monthly_forecast_call month).1 =
      (s.get_monthly_forecast_call month).1 ∧
    (s.get_monthly_forecast_call month).1 =
      MonthlyForecast.from_financial_entries month s.income_entries
        s.expense_entries :=
  ⟨rfl, rfl, rfl⟩

/-- C9: for every n ≤ 0, `get_forecast_for_next_n_months` fails with the
assertion error (propagated to the caller) and never returns a mapping. -/
theorem forecast_rejects_nonpositive_n (s : FinancialState) (today : Date)
    (n : Int) (hn : n ≤ 0) :
    s.get_forecast_for_next_n_months today n =
      Except.error "AssertionError: n must be a positive integer" := by
  unfold FinancialState.get_forecast_for_next_n_months
  simp [hn]

/-- C9 witness: n = 0 on an empty state. -/
theorem forecast_rejects_nonpositive_n_witness :
    (0 : Int) ≤ 0 ∧
    ({} : FinancialState).get_forecast_for_next_n_months ⟨2024, 1, 1⟩ 0 =
      Except.error "AssertionError: n must be a positive integer" :=
  ⟨by decide, forecast_rejects_nonpositive_n _ _ _ (by decide)⟩

/-- The state of concrete scenario C: a flat 2000 income / 800 expense
monthly budget (the repository's own
`test_financial_state__get_forecast_for_next_n_months` fixture). -/
def flatMonthlyState : FinancialState :=
  (({} : FinancialState).add_entry
      { amount := 2000
        description := "Salary"
        type := .INCOME
        recurrence := { start_date := ⟨2022, 1, 1⟩, type := .MONTHLY }
        category := "Income" }).add_entry
    { amount := 800
      description := "Rent"
      type := .EXPENSE
      recurrence := { start_date := ⟨2022, 1, 5⟩, type := .MONTHLY }
      category := "Essentials" }

/-- C2: the code does NOT roll months beyond 12 into the following year.
`today.replace(month=today.month + i)` raises `ValueError` as soon as
`today.month + i` exceeds 12, so on the flat 2000/800 state the call
`get_forecast_for_next_n_months(6)` made on 2024-08-01 fails instead of
returning 6 entries — contradicting the claim (and the repository's own
test, which expects exactly 6 entries on any current date). -/
theorem forecast_next_n_months_raises_past_december :
    flatMonthlyState.get_forecast_for_next_n_months ⟨2024, 8, 1⟩ 6 =
      Except.error "ValueError: month must be in 1..12" := by
  rfl

/-! ### C3: `from_financial_entries` filters and groups by category -/

/-- Whether an entry occurs in a month, as a plain boolean (false on the
ZeroDivisionError path; equal to the Python truth value whenever
`will_occur_on_month` succeeds). -/
def occursOn (month : Date) (e : FinancialEntry) : Bool :=
  match e.will_occur_on_month month with
  | .ok b => b
  | .error _ => false

/-- Specification-side description for C3, following the spec's words: the
exact-decimal sum of the amounts of the entries that occur in `month` and
carry category `c`, or `none` when no entry matches. -/
def specCategorySum (month : Date) (entries : List FinancialEntry)
    (c : String) : Option ℚ :=
  let matched :=
    (entries.filter fun e => occursOn month e && (e.category == c)).map
      (fun e => e.amount)
  if matched.isEmpty then none else some matched.sum

theorem lookup_map_update (m : List (String × ℚ)) (c c' : String) (a : ℚ) :
    (m.map fun p => if p.1 = c' then (p.1, p.2 + a) else p).lookup c =
      Option.map (fun v => if c' = c then v + a else v) (m.lookup c) := by
  induction m with
  | nil => rfl
  | cons p t ih =>
    obtain ⟨k, v⟩ := p
    by_cases hck : c = k
    · subst hck
      have hbe : (c == c) = true := beq_self_eq_true c
      by_cases hkc' : c = c'
      · subst hkc'
        simp [List.lookup_cons, hbe]
      · have : ¬(c' = c) := fun h => hkc' h.symm
        simp [List.lookup_cons, hbe, hkc', this]
    · have hbe : (c == k) = false := beq_eq_false_iff_ne.mpr hck
      by_cases hkc' : k = c'
      · subst hkc'
        simp [List.lookup_cons, hbe, ih]
      · simp [List.lookup_cons, hbe, hkc', ih]

theorem lookup_updateCategory (m : List (String × ℚ)) (c c' : String) (a : ℚ) :
    (updateCategory m c' a).lookup c =
      if c' = c then some ((m.lookup c).getD 0 + a) else m.lookup c := by
  unfold updateCategory
  by_cases hany : (m.any fun p => p.1 == c') = true
  · rw [if_pos hany, lookup_map_update]
    by_cases hc : c' = c
    · subst hc
      have hsome : (m.lookup c').isSome := by
        rw [List.lookup_isSome_iff]
        obtain ⟨p, hp, hpc⟩ := List.any_eq_true.mp hany
        exact ⟨p, hp, beq_iff_eq.mpr (beq_iff_eq.mp hpc).symm⟩
      obtain ⟨v, hv⟩ := Option.isSome_iff_exists.mp hsome
      simp [hv]
    · simp [hc]
  · rw [if_neg hany, List.lookup_append]
    have hnone : m.lookup c' = none := by
      rw [List.lookup_eq_none_iff]
      intro p hp
      have hnp : ¬(p.1 == c') = true :=
        fun hpc => hany (List.any_eq_true.mpr ⟨p, hp, hpc⟩)
      simp only [bne_iff_ne, ne_eq]
      exact fun hcp => hnp (beq_iff_eq.mpr hcp.symm)
    by_cases hc : c' = c
    · subst hc
      simp [hnone, List.lookup_cons]
    · have hbe : (c == c') = false :=
        beq_eq_false_iff_ne.mpr (fun h => hc h.symm)
      simp [List.lookup_cons, hbe, hc, Option.or_none]

/-- The grouping fold of `_build_forecast_by_category_for_month`, from an
arbitrary accumulator: it always succeeds when every entry's occurrence test
succeeds, and each category's bucket grows by the sum of the amounts of the
matching entries. -/
theorem foldl_build_lookup (month : Date) (entries : List FinancialEntry)
    (c : String)
    (h : ∀ e ∈ entries, ∃ b, e.will_occur_on_month month = Except.ok b)
    (acc : List (String × ℚ)) :
    ∃ res,
      (entries.foldlM
        (fun forecast entry => do
          let occurs ← entry.will_occur_on_month month
          pure (if occurs then
                  updateCategory forecast entry.category entry.amount
                else forecast))
        acc : Except String (List (String × ℚ))) = Except.ok res ∧
      res.lookup c =
        (if ((entries.filter fun e => occursOn month e && (e.category == c)).map
              (fun e => e.amount)).isEmpty
         then acc.lookup c
         else some ((acc.lookup c).getD 0 +
           ((entries.filter fun e => occursOn month e && (e.category == c)).map
             (fun e => e.amount)).sum)) := by
  induction entries generalizing acc with
  | nil => exact ⟨acc, rfl, by simp⟩
  | cons e t ih =>
    obtain ⟨b, hb⟩ := h e (List.mem_cons_self _ _)
    have hocc : occursOn month e = b := by unfold occursOn; rw [hb]
    have hT : ∀ e' ∈ t, ∃ b', e'.will_occur_on_month month = Except.ok b' :=
      fun e' he' => h e' (List.mem_cons_of_mem _ he')
    rw [List.foldlM_cons, hb]
    simp only [exceptOkBind, exceptPureEq]
    cases b with
    | false =>
      obtain ⟨res, h1, h2⟩ := ih hT acc
      refine ⟨res, ?_, ?_⟩
      · simpa using h1
      · rw [h2]
        simp [List.filter_cons, hocc]
    | true =>
      obtain ⟨res, h1, h2⟩ :=
        ih hT (updateCategory acc e.category e.amount)
      refine ⟨res, ?_, ?_⟩
      · simpa using h1
      · rw [h2, lookup_updateCategory]
        by_cases hec : e.category = c
        · have hbe : (e.category == c) = true := beq_iff_eq.mpr hec
          rw [if_pos hec]
          simp only [List.filter_cons, hocc, hbe, Bool.true_and, if_pos,
            List.map_cons, List.isEmpty_cons, List.sum_cons]
          by_cases hE : ((t.filter fun e' =>
              occursOn month e' && (e'.category == c)).map
                (fun e' => e'.amount)).isEmpty
          · rw [if_pos hE]
            have : ((t.filter fun e' =>
                occursOn month e' && (e'.category == c)).map
                  (fun e' => e'.amount)).sum = 0 := by
              rw [List.isEmpty_iff.mp hE]
              rfl
            rw [this]
            simp
          · rw [if_neg hE]
            simp [add_assoc]
        · have hbe : (e.category == c) = false := beq_eq_false_iff_ne.mpr hec
          rw [if_neg hec]
          simp [List.filter_cons, hocc, hbe]

/-- The local `_build_forecast_by_category_for_month` keeps exactly the
entries occurring in the month and sums amounts per category. -/
theorem buildForecast_lookup (month : Date) (entries : List FinancialEntry)
    (h : ∀ e ∈ entries, ∃ b, e.will_occur_on_month month = Except.ok b) :
    ∃ res, buildForecastByCategory month entries = Except.ok res ∧
      ∀ c, res.lookup c = specCategorySum month entries c := by
  have key := fun c => foldl_build_lookup month entries c h []
  obtain ⟨res, h1, _⟩ := key ""
  refine ⟨res, h1, fun c => ?_⟩
  obtain ⟨res', h1', h2'⟩ := key c
  have hres : res' = res := by
    have := h1'.symm.trans h1
    exact Except.ok.inj this
  rw [← hres, h2']
  unfold specCategorySum
  simp

/-- A category is present in `specCategorySum` exactly when some matching
entry carries it. -/
theorem specCategorySum_isSome (month : Date) (entries : List FinancialEntry)
    (c : String) :
    (specCategorySum month entries c).isSome ↔
      ∃ e ∈ entries, occursOn month e = true ∧ e.category = c := by
  unfold specCategorySum
  by_cases hE : ((entries.filter fun e =>
      occursOn month e && (e.category == c)).map (fun e => e.amount)).isEmpty
  · rw [if_pos hE]
    simp only [Option.isSome_none, Bool.false_eq_true, false_iff]
    rintro ⟨e, he, hocc, hcat⟩
    rw [List.isEmpty_iff, List.map_eq_nil_iff, List.filter_eq_nil_iff] at hE
    exact hE e he (by simp [hocc, hcat])
  · rw [if_neg hE]
    simp only [Option.isSome_some, true_iff]
    rw [List.isEmpty_iff, List.map_eq_nil_iff, List.filter_eq_nil_iff] at hE
    push_neg at hE
    obtain ⟨e, he, hcond⟩ := hE
    rw [Bool.and_eq_true, beq_iff_eq] at hcond
    exact ⟨e, he, hcond.1, hcond.2⟩

/-- C3: `from_financial_entries` keeps exactly the entries occurring in the
month; each resulting per-category mapping sends a category to the
exact-decimal sum of the matching entries' amounts, and contains a category
as a key iff at least one matching entry carries it. -/
theorem from_entries_filters_and_groups (month : Date)
    (income_entries expenses_entries : List FinancialEntry)
    (h : ∀ e ∈ income_entries ++ expenses_entries,
      ∃ b, e.will_occur_on_month month = Except.ok b) :
    ∃ f, MonthlyForecast.from_financial_entries month income_entries
        expenses_entries = Except.ok f ∧
      (∀ c, f.income_by_category.lookup c =
        specCategorySum month income_entries c) ∧
      (∀ c, f.expenses_by_category.lookup c =
        specCategorySum month expenses_entries c) ∧
      (∀ c, (f.income_by_category.lookup c).isSome ↔
        ∃ e ∈ income_entries, occursOn month e = true ∧ e.category = c) ∧
      (∀ c, (f.expenses_by_category.lookup c).isSome ↔
        ∃ e ∈ expenses_entries, occursOn month e = true ∧ e.category = c) := by
  have hi : ∀ e ∈ income_entries, ∃ b,
      e.will_occur_on_month month = Except.ok b :=
    fun e he => h e (List.mem_append.mpr (Or.inl he))
  have hx : ∀ e ∈ expenses_entries, ∃ b,
      e.will_occur_on_month month = Except.ok b :=
    fun e he => h e (List.mem_append.mpr (Or.inr he))
  obtain ⟨iRes, hi1, hi2⟩ := buildForecast_lookup month income_entries hi
  obtain ⟨xRes, hx1, hx2⟩ := buildForecast_lookup month expenses_entries hx
  refine ⟨{ month := month, expenses_by_category := xRes,
            income_by_category := iRes }, ?_, ?_, ?_, ?_, ?_⟩
  · unfold MonthlyForecast.from_financial_entries
    rw [hx1, hi1]
    rfl
  · exact hi2
  · exact hx2
  · intro c
    rw [hi2 c]
    exact specCategorySum_isSome month income_entries c
  · intro c
    rw [hx2 c]
    exact specCategorySum_isSome month expenses_entries c

/-- A concrete income entry for the C3 witness. -/
def salaryEntryW : FinancialEntry :=
  { amount := 1000
    description := "Salary"
    type := .INCOME
    recurrence := { start_date := ⟨2022, 1, 1⟩, type := .MONTHLY }
    category := "Income" }

/-- A concrete expense entry for the C3 witness. -/
def rentEntryW : FinancialEntry :=
  { amount := 500
    description := "Rent"
    type := .EXPENSE
    recurrence := { start_date := ⟨2021, 1, 5⟩, type := .MONTHLY }
    category := "Essentials" }

/-- C3 witness: the forecast for 2024-01 built from one salary and one rent
entry. -/
theorem from_entries_filters_and_groups_witness :
    (∀ e ∈ [salaryEntryW] ++ [rentEntryW],
      ∃ b, e.will_occur_on_month ⟨2024, 1, 1⟩ = Except.ok b) ∧
    (∃ f, MonthlyForecast.from_financial_entries ⟨2024, 1, 1⟩ [salaryEntryW]
        [rentEntryW] = Except.ok f ∧
      (∀ c, f.income_by_category.lookup c =
        specCategorySum ⟨2024, 1, 1⟩ [salaryEntryW] c) ∧
      (∀ c, f.expenses_by_category.lookup c =
        specCategorySum ⟨2024, 1, 1⟩ [rentEntryW] c) ∧
      (∀ c, (f.income_by_category.lookup c).isSome ↔
        ∃ e ∈ [salaryEntryW], occursOn ⟨2024, 1, 1⟩ e = true ∧
          e.category = c) ∧
      (∀ c, (f.expenses_by_category.lookup c).isSome ↔
        ∃ e ∈ [rentEntryW], occursOn ⟨2024, 1, 1⟩ e = true ∧
          e.category = c)) :=
  ⟨by
    intro e he
    simp only [List.mem_append, List.mem_singleton] at he
    rcases he with rfl | rfl
    · exact ⟨true, rfl⟩
    · exact ⟨true, rfl⟩,
   from_entries_filters_and_groups _ _ _ (by
    intro e he
    simp only [List.mem_append, List.mem_singleton] at he
    rcases he with rfl | rfl
    · exact ⟨true, rfl⟩
    · exact ⟨true, rfl⟩)⟩

/-! ### C10: `remove_entry` -/

theorem listRemove_eq_none_iff (l : List FinancialEntry) (e : FinancialEntry) :
    listRemove l e = none ↔ e ∉ l := by
  induction l with
  | nil => simp [listRemove]
  | cons x xs ih =>
    by_cases hx : x = e
    · subst hx
      simp [listRemove]
    · rw [listRemove, if_neg hx]
      simp only [Option.map_eq_none', ih, List.mem_cons, not_or]
      constructor
      · intro hm
        exact ⟨fun hex => hx hex.symm, hm⟩
      · intro hm
        exact hm.2

theorem listRemove_eq_some (l r : List FinancialEntry) (e : FinancialEntry)
    (h : listRemove l e = some r) :
    ∃ l1 l2, l = l1 ++ e :: l2 ∧ e ∉ l1 ∧ r = l1 ++ l2 := by
  induction l generalizing r with
  | nil => simp [listRemove] at h
  | cons x xs ih =>
    rw [listRemove] at h
    by_cases hx : x = e
    · rw [if_pos hx] at h
      subst hx
      obtain rfl : xs = r := Option.some.inj h
      exact ⟨[], xs, rfl, List.not_mem_nil _, rfl⟩
    · rw [if_neg hx] at h
      obtain ⟨r', hr', hmap⟩ := Option.map_eq_some'.mp h
      obtain ⟨l1, l2, h1, h2, h3⟩ := ih r' hr'
      refine ⟨x :: l1, l2, by rw [h1]; rfl, ?_, by rw [← hmap, h3]; rfl⟩
      intro hmem
      rcases List.mem_cons.mp hmem with hex | hmem1
      · exact hx hex.symm
      · exact h2 hmem1

/-- C10: `remove_entry` with an entry absent from its type's sequence raises
`ValueError` and leaves the state entirely unchanged; with the entry present
it removes exactly the first value-equal occurrence, keeps all other entries
of both types in their original order, and leaves both category sets
untouched. -/
theorem remove_entry_removes_first_occurrence (s : FinancialState)
    (e : FinancialEntry) :
    (e ∉ s.entriesOf e.type →
      s.remove_entry_call e =
        (Except.error "ValueError: list.remove(x): x not in list", s)) ∧
    (e ∈ s.entriesOf e.type → ∃ l1 l2,
      s.entriesOf e.type = l1 ++ e :: l2 ∧ e ∉ l1 ∧
      (s.remove_entry_call e).1 = Except.ok () ∧
      (s.remove_entry_call e).2.entriesOf e.type = l1 ++ l2 ∧
      (s.remove_entry_call e).2.entriesOf e.type.other =
        s.entriesOf e.type.other ∧
      (s.remove_entry_call e).2.income_categories = s.income_categories ∧
      (s.remove_entry_call e).2.expense_categories = s.expense_categories) := by
  cases hte : e.type with
  | INCOME =>
    constructor
    · intro hmem
      have hn : listRemove s.income_entries e = none := by
        rw [listRemove_eq_none_iff]
        simpa [FinancialState.entriesOf, hte] using hmem
      unfold FinancialState.remove_entry_call FinancialState.remove_entry
      rw [hte, hn]
    · intro hmem
      have hs : ∃ r, listRemove s.income_entries e = some r := by
        rcases hr : listRemove s.income_entries e with _ | r
        · rw [listRemove_eq_none_iff] at hr
          exact absurd (by simpa [FinancialState.entriesOf, hte] using hmem) hr
        · exact ⟨r, rfl⟩
      obtain ⟨r, hr⟩ := hs
      obtain ⟨l1, l2, h1, h2, h3⟩ := listRemove_eq_some _ _ _ hr
      have hcall : s.remove_entry_call e =
          (Except.ok (), { s with income_entries := r }) := by
        unfold FinancialState.remove_entry_call FinancialState.remove_entry
        rw [hte, hr]
      refine ⟨l1, l2, by simpa [FinancialState.entriesOf, hte] using h1, h2,
        ?_, ?_, ?_, ?_, ?_⟩ <;>
        simp [hcall, FinancialState.entriesOf, EntryType.other, h3]
  | EXPENSE =>
    constructor
    · intro hmem
      have hn : listRemove s.expense_entries e = none := by
        rw [listRemove_eq_none_iff]
        simpa [FinancialState.entriesOf, hte] using hmem
      unfold FinancialState.remove_entry_call FinancialState.remove_entry
      rw [hte, hn]
    · intro hmem
      have hs : ∃ r, listRemove s.expense_entries e = some r := by
        rcases hr : listRemove s.expense_entries e with _ | r
        · rw [listRemove_eq_none_iff] at hr
          exact absurd (by simpa [FinancialState.entriesOf, hte] using hmem) hr
        · exact ⟨r, rfl⟩
      obtain ⟨r, hr⟩ := hs
      obtain ⟨l1, l2, h1, h2, h3⟩ := listRemove_eq_some _ _ _ hr
      have hcall : s.remove_entry_call e =
          (Except.ok (), { s with expense_entries := r }) := by
        unfold FinancialState.remove_entry_call FinancialState.remove_entry
        rw [hte, hr]
      refine ⟨l1, l2, by simpa [FinancialState.entriesOf, hte] using h1, h2,
        ?_, ?_, ?_, ?_, ?_⟩ <;>
        simp [hcall, FinancialState.entriesOf, EntryType.other, h3]

/-- A concrete state for the C10 witness: two value-equal copies of a grocery
expense around a distinct one. -/
def groceriesEntryW : FinancialEntry :=
  { amount := 100
    description := "Groceries"
    type := .EXPENSE
    recurrence := { start_date := ⟨2024, 1, 15⟩, type := .MONTHLY }
    category := "Food" }

/-- A second, distinct expense entry for the C10 witness. -/
def internetEntryW : FinancialEntry :=
  { amount := 80
    description := "Internet"
    type := .EXPENSE
    recurrence := { start_date := ⟨2024, 2, 5⟩, type := .MONTHLY, every := 3 }
    category := "Essentials" }

/-- The C10 witness state: `[groceries, internet, groceries]` as expenses. -/
def removeWitnessState : FinancialState :=
  { expense_entries := [groceriesEntryW, internetEntryW, groceriesEntryW]
    expense_categories := ["Food", "Essentials"] }

/-- C10 witness: removing the grocery entry from the concrete state removes
its first occurrence only. -/
theorem remove_entry_removes_first_occurrence_witness :
    groceriesEntryW ∈ removeWitnessState.entriesOf groceriesEntryW.type ∧
    (∃ l1 l2,
      removeWitnessState.entriesOf groceriesEntryW.type =
        l1 ++ groceriesEntryW :: l2 ∧ groceriesEntryW ∉ l1 ∧
      (removeWitnessState.remove_entry_call groceriesEntryW).1 =
        Except.ok () ∧
      (removeWitnessState.remove_entry_call groceriesEntryW).2.entriesOf
          groceriesEntryW.type = l1 ++ l2 ∧
      (removeWitnessState.remove_entry_call groceriesEntryW).2.entriesOf
          groceriesEntryW.type.other =
        removeWitnessState.entriesOf groceriesEntryW.type.other ∧
      (removeWitnessState.remove_entry_call groceriesEntryW).2.income_categories =
        removeWitnessState.income_categories ∧
      (removeWitnessState.remove_entry_call groceriesEntryW).2.expense_categories =
        removeWitnessState.expense_categories) :=
  ⟨by decide,
   (remove_entry_removes_first_occurrence removeWitnessState
     groceriesEntryW).2 (by decide)⟩

end Moomoolah
